import Mathlib

/-!
# Verification of the GenerativeAI-KSUM media pipeline

A shallow embedding in Lean 4 of the deterministic parts of the
story-to-slideshow pipeline (`ksum/utils/story_to_scenes.py`,
`voice_generator.py`, `music_generator.py`, `video_generator.py`,
`image_generator.py`), together with proofs and refutations of the
stated behavioural properties.

Modelling conventions:
* Python floats are modelled by exact rationals (`ℚ`); `int(x)` is
  truncation toward zero (`pyInt`).
* `math.sin` is abstracted as a function parameter (the properties
  proved hold for every such function, in particular for the real sine);
  the parameter `sinw x` stands for `sin (2 * π * x)`, matching the
  `math.sin(2 * math.pi * …)` call shape used throughout the source.
* Python's global Mersenne-Twister state is modelled by an explicit
  state type `G` with abstract primitives `seedFn : ℕ → G`
  (for `random.seed`) and `rand : G → ℚ × G` (for the `[0,1)` draw
  underlying `random.uniform(a, b) = a + (b - a) * r`).
* `re.findall` context extraction (used only to build description
  strings) is abstracted as a `matcher` parameter; `re.split('[.!?]+')`
  and `str.split('\n')` are modelled concretely.  Splitting on a
  character class run `[.!?]+` and splitting on each single character
  differ only in empty pieces, which the source filters out right after,
  so the single-character split composed with the non-empty filter is
  the exact composite behaviour.
* Scene dictionaries always carry the four keys
  `description`/`narration`/`tone`/`image_prompt` (every producer in the
  source populates all four), so `dict.get` with a default is modelled
  by total structure fields.
-/

/-! ## Basic Python-style helpers -/

/-- Python `int(q)` on a float: truncation toward zero. -/
def pyInt (q : ℚ) : ℤ :=
  if 0 ≤ q then ⌊q⌋ else ⌈q⌉

/-- Fractional part used for Python `x % 1.0` (nonnegative operands). -/
def pyFract (q : ℚ) : ℚ := q - ⌊q⌋

/-- Split a character list at every separator character (the source uses
`text.split('\n')` and, composed with a non-empty filter,
`re.split(r'[.!?]+', text)`). -/
def pySplitChar (p : Char → Bool) : List Char → List (List Char)
  | [] => [[]]
  | c :: rest =>
    if p c then
      [] :: pySplitChar p rest
    else
      match pySplitChar p rest with
      | [] => [[c]]
      | piece :: pieces => (c :: piece) :: pieces

/-- Python `str.strip()` (default whitespace) on a character list. -/
def pyStrip (l : List Char) : List Char :=
  ((l.dropWhile Char.isWhitespace).reverse.dropWhile Char.isWhitespace).reverse

/-- Python `str.split()` with no argument: whitespace runs, empties dropped. -/
def pyWords (l : List Char) : List (List Char) :=
  (pySplitChar Char.isWhitespace l).filter (· ≠ [])

/-- Python substring test `needle in hay` on character lists. -/
def infixB (needle : List Char) : List Char → Bool
  | [] => needle.isEmpty
  | c :: rest => needle.isPrefixOf (c :: rest) || infixB needle rest

/-- Python `needle in hay` on strings. -/
def strContains (hay needle : String) : Bool :=
  infixB needle.toList hay.toList

/-- Python `str.lower()` (ASCII-faithful). -/
def pyLower (s : String) : String := String.mk (s.toList.map Char.toLower)

/-- First-occurrence deduplication: Python dict-of-counts key order. -/
def dedupFirst : List String → List String
  | [] => []
  | x :: xs => x :: dedupFirst (xs.filter (· ≠ x))
termination_by l => l.length
decreasing_by
  simp only [List.length_cons]
  exact Nat.lt_succ_of_le (List.length_filter_le _ _)

/-- Sequential loop threading a mutable state (Python `for` over a list
with the global RNG threaded through). -/
def statefulMap (f : σ → α → β × σ) : σ → List α → List β × σ
  | g, [] => ([], g)
  | g, a :: as =>
    let (b, g') := f g a
    let (bs, g'') := statefulMap f g' as
    (b :: bs, g'')

/-- Python `zip` of four lists (truncates to the shortest). -/
def zip4 : List α → List β → List γ → List δ → List (α × β × γ × δ)
  | a :: as, b :: bs, c :: cs, d :: ds => (a, b, c, d) :: zip4 as bs cs ds
  | _, _, _, _ => []

/-! ## Data model: the Scene record (`story_to_scenes.py` and consumers)

Every scene dictionary produced by the repository carries exactly the
keys `description`, `narration`, `tone`, `image_prompt`. -/

structure Scene where
  description : String
  narration : String
  tone : String
  image_prompt : String
deriving DecidableEq, Repr

/-! ## Content Analyzer (`story_to_scenes.py`, `extract_*`) -/

/-- Model of `extract_characters`: capitalised words not following terminal
punctuation, punctuation stripped (`re.sub(r'[^\w\s]', '', word)`),
length > 1, deduplicated in first-occurrence order (the count filter
`count >= 1` keeps every key of the insertion-ordered count dict),
filler `["Protagonist", "Character"]` when empty, capped at 5. -/
def extract_characters (story_text : String) : List String :=
  let words := (pyWords story_text.toList).map String.mk
  let potential := (List.range words.length).filterMap (fun i =>
    match words[i]?, words[i-1]? with
    | some w, some prev =>
      if 0 < i ∧ (w.toList.headD ' ').isUpper ∧
          (prev.toList.getLastD ' ') ∉ ['.', '!', '?'] then
        let clean := String.mk (w.toList.filter
          (fun c => c.isAlphanum || c = '_' || c.isWhitespace))
        if clean ≠ "" ∧ 1 < clean.length then some clean else none
      else none
    | _, _ => none)
  let characters := dedupFirst potential
  let characters := if characters = [] then ["Protagonist", "Character"] else characters
  characters.take 5

/-- The location keyword table of `extract_settings`. -/
def location_keywords : List String :=
  ["room", "house", "city", "forest", "mountain", "sea", "ocean",
   "building", "castle", "village", "town", "office", "school",
   "garden", "park", "street", "road", "path", "kitchen", "bedroom"]

/-- Model of `extract_settings`: for each location keyword, `re.findall` of a
context window around it (the regex matcher is abstracted as a
parameter); generic filler when nothing matched; capped at 3. -/
def extract_settings (matcher : String → String → List String)
    (story_text : String) : List String :=
  let settings := location_keywords.flatMap (fun kw => matcher story_text kw)
  let settings := if settings = [] then ["interior location", "exterior location"]
    else settings
  settings.take 3

/-- The object keyword table of `extract_key_objects`. -/
def object_keywords : List String :=
  ["book", "letter", "key", "door", "window", "phone", "sword",
   "ring", "necklace", "clock", "watch", "gun", "knife", "car",
   "photograph", "picture", "painting", "box", "chair", "table",
   "bed", "lamp", "light", "fire", "water", "food", "drink"]

/-- Model of `extract_key_objects`: for each object keyword contained in the
lower-cased text, `re.findall` context matches (matcher abstracted);
capped at 5 — note: no filler for the empty case. -/
def extract_key_objects (matcher : String → String → List String)
    (story_text : String) : List String :=
  let objects := object_keywords.flatMap (fun kw =>
    if strContains (pyLower story_text) kw then matcher story_text kw else [])
  objects.take 5

/-- The theme keyword dictionary of `extract_themes` (insertion order). -/
def theme_keywords : List (String × List String) :=
  [("love", ["love", "heart", "romance", "affection", "passion"]),
   ("friendship", ["friend", "friendship", "companion", "ally", "comrade"]),
   ("betrayal", ["betray", "deception", "dishonesty", "treachery"]),
   ("revenge", ["revenge", "vengeance", "retribution", "payback"]),
   ("mystery", ["mystery", "enigma", "puzzle", "secret", "clue"]),
   ("adventure", ["adventure", "journey", "quest", "expedition"]),
   ("conflict", ["conflict", "struggle", "battle", "fight", "war"]),
   ("transformation", ["change", "transform", "evolve", "metamorphosis"]),
   ("redemption", ["redemption", "forgiveness", "atonement"]),
   ("loss", ["loss", "grief", "mourning", "sorrow", "death"])]

/-- Model of `extract_themes`: a theme is found when any of its keywords occurs in
the lower-cased text; filler when none; capped at 3. -/
def extract_themes (story_text : String) : List String :=
  let story_lower := pyLower story_text
  let found := (theme_keywords.filter
    (fun p => p.2.any (fun kw => strContains story_lower kw))).map Prod.fst
  let found := if found = [] then ["discovery", "challenge"] else found
  found.take 3

/-- The emotion keyword dictionary of `extract_emotions` (insertion order). -/
def emotion_keywords : List (String × List String) :=
  [("happy", ["happy", "joy", "delight", "pleased", "smile", "laugh"]),
   ("sad", ["sad", "sorrow", "unhappy", "miserable", "cry", "tear"]),
   ("angry", ["angry", "fury", "rage", "mad", "irritated", "annoyed"]),
   ("afraid", ["fear", "afraid", "scared", "terrified", "dread"]),
   ("surprised", ["surprise", "astonished", "amazed", "shocked"]),
   ("disgust", ["disgust", "repulsed", "revolted"]),
   ("anticipation", ["anticipation", "expectation", "excitement"]),
   ("trust", ["trust", "belief", "faith", "confidence"]),
   ("curious", ["curious", "intrigued", "interested"]),
   ("confused", ["confused", "perplexed", "puzzled", "bewildered"])]

/-- Model of `extract_emotions`: like `extract_themes` but with no cap at all —
the returned list is only bounded by the 10 dictionary categories. -/
def extract_emotions (story_text : String) : List String :=
  let story_lower := pyLower story_text
  let found := (emotion_keywords.filter
    (fun p => p.2.any (fun kw => strContains story_lower kw))).map Prod.fst
  if found = [] then ["curious", "determined"] else found

/-! ## Scene Segmenter (`story_to_scenes.py`) -/

/-- Model of `SCENE_TYPES` catalog (10 entries). -/
def SCENE_TYPES : List String :=
  ["establishing shot", "character introduction", "dialogue scene", "action sequence",
   "emotional moment", "revelation", "montage", "flashback", "conflict", "resolution"]

/-- Model of `CINEMATIC_STYLES` catalog (10 entries). -/
def CINEMATIC_STYLES : List String :=
  ["golden hour lighting with warm tones", "dramatic chiaroscuro with high contrast",
   "soft ethereal lighting with dreamy atmosphere", "vibrant color palette with rich saturation",
   "moody low-key lighting with deep shadows", "bright high-key lighting with minimal shadows",
   "noir-inspired with stark contrast", "vintage film look with muted colors",
   "neon-lit cyberpunk aesthetic", "earthy natural lighting"]

/-- Model of `CAMERA_SHOTS` catalog (10 entries). -/
def CAMERA_SHOTS : List String :=
  ["close-up", "extreme close-up", "medium shot", "wide shot", "overhead shot",
   "low angle", "high angle", "tracking shot", "dolly zoom", "long shot"]

/-- Python `story_text.strip()` as a `String` operation. -/
def trimS (s : String) : String := String.mk (pyStrip s.toList)

/-- Paragraph list: `[p.strip() for p in text.split('\n') if p.strip()]`. -/
def paragraphsOf (text : List Char) : List (List Char) :=
  ((pySplitChar (fun c => c == '\n') text).map pyStrip).filter (· ≠ [])

/-- Sentence list via the source's regex fallback
`re.split(r'[.!?]+', text)`, stripped and filtered non-empty
(`nltk.sent_tokenize` is an external library; the in-repo splitter is
this regex). -/
def sentencesOf (text : List Char) : List (List Char) :=
  ((pySplitChar (fun c => c == '.' || c == '!' || c == '?') text).map pyStrip).filter (· ≠ [])

/-- Model of `' '.join(...)` on character lists. -/
def joinSpace (ls : List (List Char)) : List Char := List.intercalate [' '] ls

/-- The scene text chunks of `create_advanced_fallback_scenes`
(paragraph-first, sentence-fallback, empty-string padding). -/
def sceneTextsAdv (text : List Char) (n : ℕ) : List (List Char) :=
  let paragraphs := paragraphsOf text
  if paragraphs.length < n then
    let sentences := sentencesOf text
    if n ≤ sentences.length then
      let spp := max 1 (sentences.length / n)
      (List.range n).map (fun i =>
        let start := i * spp
        let slice := if i < n - 1 then (sentences.drop start).take spp
          else sentences.drop start
        joinSpace slice)
    else
      let st := sentences.take n
      st ++ List.replicate (n - st.length) []
  else
    let st := paragraphs.take n
    st ++ List.replicate (n - st.length) []

/-- Model of `narration = scene_text if scene_text else text[:100] + "..."`. -/
def narrationOf (text st : List Char) : List Char :=
  if st ≠ [] then st else text.take 100 ++ "...".toList

/-- The fixed cyclic tone list of `create_advanced_fallback_scenes`. -/
def tones8 : List String :=
  ["mysterious", "joyful", "somber", "tense", "romantic", "adventurous", "dramatic", "peaceful"]

/-- Model of `characters[i % len(characters)] if characters else dflt`. -/
def cycleAt (l : List String) (i : ℕ) (dflt : String) : String :=
  if l = [] then dflt else l.getD (i % l.length) dflt

/-- Model of `create_advanced_fallback_scenes`.  The `random.sample` draws of
scene types, cinematic styles and camera shots are passed in as the
lists `types`, `styles`, `shots` (the source samples
`min (n, 10)`-element lists from the three 10-entry catalogs); the two
`re.findall` context matchers of the content analyzer are abstracted as
`matcherS`/`matcherO`. -/
def create_advanced_fallback_scenes
    (matcherS matcherO : String → String → List String)
    (types styles shots : List String)
    (story_text : String) (n : ℕ) : List Scene :=
  let text := trimS story_text
  let characters := extract_characters text
  let settings := extract_settings matcherS text
  let objects := extract_key_objects matcherO text
  let themes := extract_themes text
  let emotions := extract_emotions text
  let scene_texts := sceneTextsAdv text.toList n
  (zip4 scene_texts types styles shots).enum.map (fun p =>
    let i := p.1
    let st := p.2.1
    let scene_type := p.2.2.1
    let style := p.2.2.2.1
    let shot := p.2.2.2.2
    let character := cycleAt characters i "Protagonist"
    let setting := cycleAt settings i "setting"
    let emotion := cycleAt emotions i "emotional"
    let theme := cycleAt themes i "thematic"
    let scene_objects := if objects ≠ [] then
        (objects.enum.filter (fun q => q.1 % n = i)).map Prod.snd else []
    let object_text := if scene_objects ≠ [] then
        ", featuring " ++ String.intercalate " and " scene_objects else ""
    let tone := tones8.getD (i % tones8.length) ""
    { description := "Scene " ++ toString (i + 1) ++ ": A " ++ shot ++ " of " ++
        character ++ " in the " ++ setting ++ ", during a " ++ scene_type ++
        " moment. " ++ style ++ object_text ++ ". The atmosphere conveys a " ++
        tone ++ " and " ++ emotion ++ " feeling, emphasizing the theme of " ++ theme ++ "."
      narration := String.mk (narrationOf text.toList st)
      tone := tone
      image_prompt := "A " ++ tone ++ " scene showing " ++ character ++ " in " ++
        setting ++ " with " ++ style ++ ". " ++ shot ++ " perspective" ++ object_text ++
        ". Cinematic lighting, detailed, artistic composition with professional film quality." })

/-- The fixed cyclic tone list of `create_smart_fallback_scenes`. -/
def tones5 : List String :=
  ["mysterious", "adventurous", "emotional", "dramatic", "peaceful"]

/-- Keyword stop set of `create_smart_fallback_scenes`. -/
def smart_stopwords : List String :=
  ["there", "their", "which", "would", "could", "about", "through"]

/-- Model of `create_smart_fallback_scenes`: texts under 100 characters (after
strip) short-circuit into a single scene narrated by the whole trimmed
text; otherwise paragraph-first/sentence-fallback segmentation with
`'. '`-joined sentence groups. -/
def create_smart_fallback_scenes (story_text : String) (n : ℕ) : List Scene :=
  let text := trimS story_text
  if text.length < 100 then
    [{ description := "A visualization of the story: " ++ text.take 50 ++ "..."
       narration := text
       tone := "neutral"
       image_prompt := "A cinematic scene depicting: " ++ text.take 50 ++
         "... with artistic lighting and detailed visuals." }]
  else
    let paragraphs := paragraphsOf text.toList
    let scene_texts :=
      if paragraphs.length < n then
        let sentences := sentencesOf text.toList
        if n ≤ sentences.length then
          let spp := sentences.length / n
          (List.range n).map (fun i =>
            let start := i * spp
            let slice := if i < n - 1 then (sentences.drop start).take spp
              else sentences.drop start
            List.intercalate ['.', ' '] slice ++ ['.'])
        else
          if paragraphs ≠ [] then paragraphs else [text.toList]
      else paragraphs.take n
    (scene_texts.take n).enum.map (fun p =>
      let i := p.1
      let st := p.2
      let words := (pyWords (pyLower (String.mk st)).toList).map String.mk
      let keywords := (words.filter
        (fun w => 4 < w.length ∧ w ∉ smart_stopwords)).take 5
      let tone := tones5.getD (i % tones5.length) ""
      { description := "Scene " ++ toString (i + 1) ++ ": " ++
          String.mk (st.take 100) ++ "..."
        narration := String.mk st
        tone := tone
        image_prompt := "A " ++ tone ++ " scene showing " ++
          String.intercalate " " keywords ++
          ". Cinematic lighting, detailed, artistic composition." })

/-- The fallback path of `story_to_scenes`: when the GPT call raises,
the function returns `create_advanced_fallback_scenes(story_text)` with
the default scene count 3 (both the inner `except` and the outer one). -/
def story_to_scenes_fallback
    (matcherS matcherO : String → String → List String)
    (types styles shots : List String) (story_text : String) : List Scene :=
  create_advanced_fallback_scenes matcherS matcherO types styles shots story_text 3

/-! ## Procedural Audio Synthesizer — Voice (`voice_generator.py`) -/

/-- Model of `random.uniform(a, b)` on the abstract RNG state:
`a + (b - a) * r` for the next unit draw `r`. -/
def pyUniform (rand : G → ℚ × G) (a b : ℚ) (g : G) : ℚ × G :=
  let (r, g') := rand g
  (a + (b - a) * r, g')

/-- Model of `seed = sum(ord(c) for c in text[:20])`. -/
def seedOf (text : String) : ℕ :=
  ((text.toList.take 20).map Char.toNat).sum

/-- Model of `text_to_speech_tone(text, output_file, duration=None)`: the full
per-sample synthesis loop, with `math.sin (2π·x)` abstracted as `sinw x`
and the global RNG as the explicit state `g0` (reset by `random.seed`
before any draw).  Returns the interleaved stereo sample stream that the
function writes over `output_file`, with the final RNG state. -/
def text_to_speech_tone (seedFn : ℕ → G) (rand : G → ℚ × G) (sinw : ℚ → ℚ)
    (text : String) (durOpt : Option ℚ) (g0 : G) : List ℤ × G :=
  let duration : ℚ := match durOpt with
    | none => max 3 (((pyWords text.toList).length : ℚ) / 150 * 60)
    | some d => d
  let amplitude : ℚ := 20000
  let g1 := seedFn (seedOf text)
  let lower := pyLower text
  let fp :=
    if ["happy", "joy", "exciting", "thrill"].any (fun w => strContains lower w) then
      let u := pyUniform rand 350 440 g1
      ((u.1, "rising"), u.2)
    else if ["sad", "sorrow", "tragic", "gloomy"].any (fun w => strContains lower w) then
      let u := pyUniform rand 200 280 g1
      ((u.1, "falling"), u.2)
    else if ["tension", "fear", "scary", "danger"].any (fun w => strContains lower w) then
      let u := pyUniform rand 300 350 g1
      ((u.1, "wavering"), u.2)
    else
      let u := pyUniform rand 280 320 g1
      ((u.1, "neutral"), u.2)
  let base_freq := fp.1.1
  let pattern := fp.1.2
  let g2 := fp.2
  let num_samples := (pyInt (44100 * duration)).toNat
  let loop := statefulMap (fun g (i : ℕ) =>
    let time_point : ℚ := (i : ℚ) / 44100
    let syllable_position := pyFract (time_point * 4)
    let syllable_amp :=
      if syllable_position < 0.4 then
        0.95 + 0.05 * sinw (syllable_position / 0.4)
      else
        0.85 * (1 - (syllable_position - 0.4) / 0.6)
    let freq_mod :=
      if pattern = "rising" then base_freq * (1 + 0.1 * time_point / duration)
      else if pattern = "falling" then base_freq * (1 + 0.1 * (1 - time_point / duration))
      else if pattern = "wavering" then base_freq * (1 + 0.1 * sinw (time_point / 1.5))
      else base_freq
    let vibrato := sinw (5 * time_point)
    let articulation :=
      if pyInt (time_point * 2) % 2 = 0 then 0.15 * sinw (12 * time_point) else 0
    let frequency := freq_mod * (1 + 0.01 * vibrato)
    let sample_value := syllable_amp * amplitude * sinw (frequency * time_point)
    let sample_value := sample_value + articulation * amplitude
    let u := pyUniform rand (-(0.03 * amplitude)) (0.03 * amplitude) g
    let sample_value := sample_value + u.1
    let fade_duration := min 0.3 (duration / 10)
    let fade_factor :=
      if time_point < fade_duration then time_point / fade_duration
      else if duration - fade_duration < time_point then (duration - time_point) / fade_duration
      else 1
    let sample_value := sample_value * fade_factor
    (pyInt sample_value, u.2)) g2 (List.range num_samples)
  let audio_data := loop.1
  (audio_data.flatMap (fun s => [s, s]), loop.2)

/-- The duration estimate `max(3.0, words / 150 * 60)`. -/
def ttsDuration (text : String) : ℚ :=
  max 3 (((pyWords text.toList).length : ℚ) / 150 * 60)

/-- Model of `num_samples = int(sample_rate * duration)` for the default duration. -/
def ttsNumSamples (text : String) : ℕ :=
  (pyInt (44100 * ttsDuration text)).toNat

/-- The per-scene narration file path `outputs/voice/scene_{i+1}.wav`. -/
def audioFileName (i : ℕ) : String :=
  "outputs/voice/scene_" ++ toString (i + 1) ++ ".wav"

/-- Model of `generate_voice_for_scenes`: iterates scenes with their index,
*skips* scenes whose narration is empty (without appending anything),
and appends the per-index output path of each synthesized narration
(the synthesis itself always succeeds in this model, as it does on the
fallback path of `generate_fallback_audio`). -/
def generate_voice_for_scenes (scenes : List Scene) : List String :=
  (scenes.enum.filter (fun p => p.2.narration ≠ "")).map (fun p => audioFileName p.1)

/-! ## Procedural Audio Synthesizer — Music (`music_generator.py`) -/

/-- Model of `for i in range(min(len(note), len(base))): base[i] += note[i]`. -/
def addInto (base note : List ℤ) : List ℤ :=
  base.mapIdx (fun i b => b + ((note.get? i).getD 0))

/-- Model of `for j in range(len(note)): if start + j < len(base): base[start+j] += note[j]`. -/
def addIntoAt (base note : List ℤ) (start : ℕ) : List ℤ :=
  base.mapIdx (fun j b => if start ≤ j then b + ((note.get? (j - start)).getD 0) else b)

/-- Model of `generate_note(frequency, duration, sample_rate, amplitude, fade)`. -/
def generate_note (sinw : ℚ → ℚ) (frequency duration : ℚ)
    (sample_rate : ℚ := 44100) (amplitude : ℚ := 10000) (fade : ℚ := 0.1) : List ℤ :=
  let num_frames := (pyInt (sample_rate * duration)).toNat
  let fade_frames := (pyInt (fade * sample_rate)).toNat
  (List.range num_frames).map (fun (i : ℕ) =>
    let t : ℚ := (i : ℚ) / sample_rate
    let sample := amplitude * sinw (frequency * t)
    let sample :=
      if i < fade_frames then sample * (i : ℚ) / (fade_frames : ℚ)
      else if (num_frames : ℤ) - (fade_frames : ℤ) < (i : ℤ) then
        sample * ((num_frames : ℚ) - (i : ℚ)) / fade_frames
      else sample
    pyInt sample)

/-- Model of `generate_chord(frequencies, duration, sample_rate, amplitude, fade)`. -/
def generate_chord (sinw : ℚ → ℚ) (frequencies : List ℚ) (duration : ℚ)
    (sample_rate : ℚ := 44100) (amplitude : ℚ := 4000) (fade : ℚ := 0.1) : List ℤ :=
  let num_frames := (pyInt (sample_rate * duration)).toNat
  frequencies.foldl (fun waveform freq =>
    addInto waveform (generate_note sinw freq duration sample_rate amplitude fade))
    (List.replicate num_frames 0)

/-- Model of `generate_arpeggio(frequencies, duration, notes_per_second, sample_rate, amplitude)`. -/
def generate_arpeggio (sinw : ℚ → ℚ) (frequencies : List ℚ) (duration tempo : ℚ)
    (sample_rate : ℚ := 44100) (amplitude : ℚ := 8000) : List ℤ :=
  let note_duration := 1 / tempo
  let num_frames := (pyInt (sample_rate * duration)).toNat
  let total_notes := (pyInt (duration * tempo)).toNat
  (List.range total_notes).foldl (fun waveform (i : ℕ) =>
    let freq := (frequencies.get? (i % frequencies.length)).getD 0
    let start_frame := (pyInt ((i : ℚ) * note_duration * sample_rate)).toNat
    let note := generate_note sinw freq (note_duration * 1.2) sample_rate amplitude 0.05
    addIntoAt waveform note start_frame)
    (List.replicate num_frames 0)

/-- Python `max(list)` (the source only reaches it on non-empty lists;
`0` stands in for the `ValueError` on an empty one). -/
def pyListMax : List ℤ → ℤ
  | [] => 0
  | x :: xs => xs.foldl max x

/-- Python `min(list)`, same convention as `pyListMax`. -/
def pyListMin : List ℤ → ℤ
  | [] => 0
  | x :: xs => xs.foldl min x

/-- The delay-based reverb of `generate_musical_theme`:
`reverb[i] = w[i] + int(w[i - delay_frames] * decay)` for `i ≥ delay_frames`. -/
def musicReverb (delay_frames : ℕ) (decay : ℚ) (waveform : List ℤ) : List ℤ :=
  waveform.mapIdx (fun i x =>
    x + if delay_frames ≤ i then
      pyInt ((((waveform.get? (i - delay_frames)).getD 0 : ℤ) : ℚ) * decay) else 0)

/-- The final normalization of `generate_musical_theme`:
`scale_factor = 32000 / max_amplitude` applied samplewise under `int()`
when `max_amplitude > 0`. -/
def musicNormalize (waveform : List ℤ) : List ℤ :=
  let max_amplitude := max |pyListMin waveform| |pyListMax waveform|
  if 0 < max_amplitude then
    waveform.map (fun (x : ℤ) => pyInt ((x : ℚ) * (32000 / (max_amplitude : ℚ))))
  else waveform

/-- Model of `generate_musical_theme(theme, duration, sample_rate)`.  The
branch-specific `random.uniform` tempo draw is abstracted as the
parameter `tempo`; `math.sin (2π·x)` as `sinw x`.  Inner note/chord/
arpeggio calls use their own default sample rate 44100 exactly as in the
source (the outer `sample_rate` parameter only reaches the rhythmic-bass
start frames and the reverb delay). -/
def generate_musical_theme (sinw : ℚ → ℚ) (tempo : ℚ) (theme : String)
    (duration : ℚ := 15) (sample_rate : ℚ := 44100) : List ℤ :=
  let c_major : List ℚ := [261.63, 293.66, 329.63, 349.23, 392.00, 440.00, 493.88]
  let c_minor : List ℚ := [261.63, 293.66, 311.13, 349.23, 392.00, 415.30, 466.16]
  let c_pentatonic : List ℚ := [261.63, 293.66, 329.63, 392.00, 440.00]
  let theme_lower := pyLower theme
  let sel :=
    if ["happy", "cheerful", "uplifting"].any (fun w => strContains theme_lower w) then
      let scale := c_major
      ("arpeggio",
       [[scale.getD 0 0, scale.getD 2 0, scale.getD 4 0],
        [scale.getD 3 0, scale.getD 5 0, scale.getD 0 0],
        [scale.getD 4 0, scale.getD 6 0, scale.getD 1 0],
        [scale.getD 0 0, scale.getD 2 0, scale.getD 4 0]])
    else if ["sad", "melancholic", "sorrow"].any (fun w => strContains theme_lower w) then
      let scale := c_minor
      ("chord",
       [[scale.getD 0 0, scale.getD 2 0, scale.getD 4 0],
        [scale.getD 5 0, scale.getD 0 0, scale.getD 2 0],
        [scale.getD 3 0, scale.getD 5 0, scale.getD 0 0],
        [scale.getD 4 0, scale.getD 6 0, scale.getD 1 0]])
    else if ["mysterious", "dark", "tension", "suspense"].any (fun w => strContains theme_lower w) then
      let scale := c_minor
      ("arpeggio",
       [[scale.getD 0 0, scale.getD 3 0, scale.getD 6 0],
        [scale.getD 1 0, scale.getD 4 0, scale.getD 6 0],
        [scale.getD 0 0, scale.getD 3 0, scale.getD 6 0],
        [scale.getD 4 0, scale.getD 0 0, scale.getD 2 0]])
    else if ["adventure", "epic", "heroic"].any (fun w => strContains theme_lower w) then
      let scale := c_major
      ("mixed",
       [[scale.getD 0 0, scale.getD 2 0, scale.getD 4 0],
        [scale.getD 0 0, scale.getD 2 0, scale.getD 4 0],
        [scale.getD 3 0, scale.getD 5 0, scale.getD 0 0],
        [scale.getD 4 0, scale.getD 6 0, scale.getD 1 0]])
    else
      let scale := c_pentatonic
      ("chord",
       [[scale.getD 0 0, scale.getD 2 0, scale.getD 4 0],
        [scale.getD 1 0, scale.getD 3 0, scale.getD 0 0],
        [scale.getD 4 0, scale.getD 1 0, scale.getD 3 0],
        [scale.getD 0 0, scale.getD 2 0, scale.getD 4 0]])
  let pattern := sel.1
  let chords := sel.2
  let bass_octave : ℚ := 0.5
  let chord_duration := duration / (chords.length : ℚ)
  let waveform := chords.foldl (fun waveform chord =>
    let section_waveform :=
      if pattern = "arpeggio" then
        let arpeggio_notes := chord ++ [chord.headD 0 * 2]
        let s := generate_arpeggio sinw arpeggio_notes chord_duration tempo 44100 8000
        let bass_note := generate_note sinw (chord.headD 0 * bass_octave) chord_duration 44100 5000 0.2
        addInto s bass_note
      else if pattern = "chord" then
        let s := generate_chord sinw chord chord_duration 44100 4000 0.3
        let bass_duration := chord_duration / 4
        (List.range 4).foldl (fun s (i : ℕ) =>
          let bass_note := generate_note sinw (chord.headD 0 * bass_octave) bass_duration 44100 6000 0.1
          let start_frame := (pyInt ((i : ℚ) * bass_duration * sample_rate)).toNat
          addIntoAt s bass_note start_frame) s
      else
        let chord_sound := generate_chord sinw chord (chord_duration / 2) 44100 4000 0.2
        let arpeggio_notes := chord ++ [chord.headD 0 * 2]
        let arpeggio_sound := generate_arpeggio sinw arpeggio_notes (chord_duration / 2) tempo 44100 8000
        chord_sound ++ arpeggio_sound
    waveform ++ section_waveform) []
  let delay_frames := (pyInt (100 * sample_rate / 1000)).toNat
  let reverb_waveform := musicReverb delay_frames 0.6 waveform
  musicNormalize reverb_waveform

/-! ## Media Assembler (`video_generator.py`) -/

/-- Model of `ensure_audio_duration` reduced to the duration it produces: a clip
longer than the target is `subclip`ped to the target, a shorter one is
composited with trailing silence up to the target. -/
def ensure_audio_duration (audio_duration target_duration : ℚ) : ℚ :=
  if target_duration < audio_duration then target_duration
  else if audio_duration < target_duration then target_duration
  else audio_duration

/-- The per-scene duration logic of `create_slideshow` (lines 146–207):
starting from the 8.0-second default, when a narration audio file is
present its duration is first clamped (`audio_duration = min(audio,
scene_duration)`) and the scene duration then maximised against the
clamped value; absent audio yields a silent track of the default
duration.  Returns `(clip duration, attached audio track duration)`. -/
def scene_clip_durations (audio : Option ℚ) : ℚ × ℚ :=
  let scene_duration : ℚ := 8
  match audio with
  | some ad =>
    let audio_duration := min ad scene_duration
    let scene_duration := max scene_duration audio_duration
    (scene_duration, ensure_audio_duration ad scene_duration)
  | none => (scene_duration, scene_duration)

/-! ## Procedural Image Synthesizer (`image_generator.py`) -/

/-- RGB triple. -/
abbrev RGB := ℕ × ℕ × ℕ

/-- A tone palette: gradient endpoints, structural colors, focal colors. -/
structure Palette where
  bg : List RGB
  fg : List RGB
  accent : List RGB
deriving DecidableEq, Repr

/-- The `mysterious` entry of the palette table. -/
def mysterious_palette : Palette :=
  { bg := [(20, 0, 40), (60, 30, 110)]
    fg := [(120, 0, 200), (200, 150, 255), (80, 30, 80)]
    accent := [(0, 200, 255), (255, 50, 200)] }

/-- The fixed 8-tone palette table of `get_tone_colors`. -/
def tone_palettes : List (String × Palette) :=
  [("mysterious", mysterious_palette),
   ("joyful",
    { bg := [(100, 200, 255), (200, 255, 220)]
      fg := [(255, 200, 0), (255, 150, 0), (0, 180, 120)]
      accent := [(255, 100, 100), (255, 50, 50)] }),
   ("somber",
    { bg := [(50, 50, 70), (80, 80, 120)]
      fg := [(130, 130, 180), (70, 70, 70), (120, 120, 170)]
      accent := [(200, 200, 255), (150, 120, 200)] }),
   ("tense",
    { bg := [(70, 10, 10), (150, 30, 30)]
      fg := [(200, 50, 30), (100, 0, 0), (150, 50, 50)]
      accent := [(255, 200, 50), (255, 150, 0)] }),
   ("romantic",
    { bg := [(150, 50, 100), (255, 200, 220)]
      fg := [(255, 150, 150), (200, 100, 150), (255, 200, 180)]
      accent := [(255, 220, 200), (255, 150, 200)] }),
   ("adventurous",
    { bg := [(0, 50, 0), (100, 150, 100)]
      fg := [(150, 200, 50), (200, 180, 0), (120, 100, 0)]
      accent := [(255, 200, 0), (200, 255, 100)] }),
   ("dramatic",
    { bg := [(20, 0, 40), (80, 10, 30)]
      fg := [(150, 0, 0), (50, 0, 100), (100, 50, 50)]
      accent := [(255, 200, 0), (200, 0, 0)] }),
   ("peaceful",
    { bg := [(50, 100, 200), (200, 240, 255)]
      fg := [(100, 200, 255), (150, 200, 200), (100, 180, 200)]
      accent := [(255, 255, 200), (200, 255, 255)] })]

/-- Model of `get_tone_colors`: `tone_palettes.get(tone.lower(),
tone_palettes["mysterious"])`. -/
def get_tone_colors (tone : String) : Palette :=
  match tone_palettes.find? (fun p => p.1 == pyLower tone) with
  | some p => p.2
  | none => mysterious_palette

/-- The tone keyword scan order of `generate_image` (lines 620–626). -/
def image_tone_keywords : List String :=
  ["mysterious", "joyful", "somber", "tense", "romantic", "adventurous", "dramatic", "peaceful"]

/-- The tone that `generate_image` derives from its prompt (first
keyword found in the lower-cased prompt, `"mysterious"` otherwise). -/
def extract_tone_from_prompt (prompt : String) : String :=
  match image_tone_keywords.find? (fun kw => strContains (pyLower prompt) kw) with
  | some kw => kw
  | none => "mysterious"

/-- The tone driving the placeholder palette for a scene in
`generate_images_for_scenes`: the call at line 696 passes only the
prompt (`scene.get("image_prompt", …)`) to `generate_image`, so the tone
is recomputed from the prompt and the scene's own `tone` field is
ignored. -/
def images_tone_used (scene : Scene) : String :=
  extract_tone_from_prompt scene.image_prompt

/-! ## Helper lemmas -/

theorem pyInt_nonneg_eq_floor {q : ℚ} (h : 0 ≤ q) : pyInt q = ⌊q⌋ := by
  simp [pyInt, h]

theorem abs_pyInt_le {q : ℚ} {n : ℤ} (hn : 0 ≤ n) (h : |q| ≤ (n : ℚ)) :
    |pyInt q| ≤ n := by
  rcases abs_le.mp h with ⟨hl, hr⟩
  rw [abs_le]
  unfold pyInt
  split
  · constructor
    · exact le_trans (by omega) (Int.floor_nonneg.mpr (by assumption))
    · calc ⌊q⌋ ≤ ⌊(n : ℚ)⌋ := Int.floor_le_floor hr
        _ = n := Int.floor_intCast n
  · rename_i hq
    push_neg at hq
    constructor
    · calc (-n : ℤ) = ⌈((-n : ℤ) : ℚ)⌉ := (Int.ceil_intCast _).symm
        _ ≤ ⌈q⌉ := Int.ceil_le_ceil (by push_cast; linarith)
    · calc ⌈q⌉ ≤ ⌈(0 : ℚ)⌉ := Int.ceil_le_ceil (le_of_lt hq)
        _ = 0 := by simp
        _ ≤ n := hn

theorem statefulMap_length (f : σ → α → β × σ) (g : σ) (l : List α) :
    (statefulMap f g l).1.length = l.length := by
  induction l generalizing g with
  | nil => rfl
  | cons a as ih => simp [statefulMap, ih]

theorem pySplitChar_ne_nil (p : Char → Bool) (l : List Char) :
    pySplitChar p l ≠ [] := by
  cases l with
  | nil => simp [pySplitChar]
  | cons c rest =>
    by_cases hc : p c
    · simp [pySplitChar, hc]
    · simp only [pySplitChar, hc, if_false]
      rcases hrec : pySplitChar p rest with _ | ⟨q, qs⟩ <;> simp

theorem pySplitChar_head_pre (p : Char → Bool) (l : List Char) :
    ∀ q qs, pySplitChar p l = q :: qs → q <+: l := by
  induction l with
  | nil =>
    intro q qs h
    simp [pySplitChar] at h
    simp [h.1]
  | cons c rest ih =>
    intro q qs h
    by_cases hc : p c
    · simp [pySplitChar, hc] at h
      simp [h.1]
    · simp only [pySplitChar, hc, if_false] at h
      rcases hrec : pySplitChar p rest with _ | ⟨q', qs'⟩
      · exact absurd hrec (pySplitChar_ne_nil p rest)
      · rw [hrec] at h
        obtain ⟨h1, _⟩ := List.cons.inj h
        subst h1
        obtain ⟨t, ht⟩ := ih q' qs' hrec
        exact ⟨t, by simp [ht]⟩

theorem mem_pySplitChar_substring (p : Char → Bool) (l : List Char) :
    ∀ piece ∈ pySplitChar p l, piece <:+: l := by
  induction l with
  | nil =>
    intro piece h
    simp [pySplitChar] at h
    exact ⟨[], [], by simp [h]⟩
  | cons c rest ih =>
    intro piece h
    by_cases hc : p c
    · simp [pySplitChar, hc] at h
      rcases h with h | h
      · exact ⟨[], c :: rest, by simp [h]⟩
      · obtain ⟨s, t, hst⟩ := ih piece h
        exact ⟨c :: s, t, by simp [hst]⟩
    · simp only [pySplitChar, hc, if_false] at h
      rcases hrec : pySplitChar p rest with _ | ⟨q, qs⟩
      · exact absurd hrec (pySplitChar_ne_nil p rest)
      · rw [hrec] at h
        rcases List.mem_cons.mp h with h1 | h1
        · subst h1
          obtain ⟨t, ht⟩ := pySplitChar_head_pre p rest q qs hrec
          exact ⟨[], t, by simp [ht]⟩
        · obtain ⟨s, t, hst⟩ := ih piece (by rw [hrec]; exact List.mem_cons_of_mem _ h1)
          exact ⟨c :: s, t, by simp [hst]⟩

theorem pyStrip_substring (l : List Char) : pyStrip l <:+: l := by
  unfold pyStrip
  have hsuf : (l.dropWhile Char.isWhitespace).reverse.dropWhile Char.isWhitespace
      <:+ (l.dropWhile Char.isWhitespace).reverse := List.dropWhile_suffix _
  obtain ⟨t, ht⟩ := hsuf
  have hpre : ((l.dropWhile Char.isWhitespace).reverse.dropWhile Char.isWhitespace).reverse
      <+: l.dropWhile Char.isWhitespace :=
    ⟨t.reverse, by rw [← List.reverse_append, ht, List.reverse_reverse]⟩
  exact hpre.isInfix.trans (List.dropWhile_suffix _).isInfix


/-! ## Claim theorems -/

/-- C1 (counterexample): for a scene whose narration audio is 20 seconds
long, the rendered clip's duration is 8.0, not the audio duration — the
code clamps the audio duration to the default *before* maximising the
scene duration, so the clip is never extended, contradicting the claim
even beyond any fade-transition tolerance (the fades are 1.0 s each). -/
theorem c1_counterexample :
    (scene_clip_durations (some 20)).1 = 8 ∧
    ¬ |(scene_clip_durations (some 20)).1 - 20| ≤ 2 := by
  have h : scene_clip_durations (some 20) = (8, 8) := by
    simp only [scene_clip_durations, ensure_audio_duration]
    norm_num
  rw [h]
  norm_num [abs_of_nonpos]

/-- C1 (amended): in `create_slideshow`, the rendered clip duration is
always the 8.0-second default: `audio_duration = min(audio, 8.0)`
followed by `scene_duration = max(8.0, audio_duration)` leaves 8.0 for
every audio duration, and `ensure_audio_duration` trims or pads the
narration track to those same 8.0 seconds; a scene with no audio path
likewise gets a silent track of the default 8.0 seconds. -/
theorem c1_clip_duration_default (audio : Option ℚ) :
    (scene_clip_durations audio).1 = 8 ∧ (scene_clip_durations audio).2 = 8 := by
  cases audio with
  | none => exact ⟨rfl, rfl⟩
  | some ad =>
    have hmax : max (8 : ℚ) (min ad 8) = 8 := max_eq_left (min_le_right _ _)
    constructor
    · simpa only [scene_clip_durations] using hmax
    · simp only [scene_clip_durations, ensure_audio_duration, hmax]
      rcases lt_trichotomy (8 : ℚ) ad with h | h | h
      · simp [h]
      · simp [h.symm, lt_irrefl]
      · simp [h, not_lt_of_gt h]

/-- C2 (counterexample): with a first scene whose narration is empty,
`generate_voice_for_scenes` skips it without emitting a list entry, so
the audio path at position 0 — the one `create_slideshow` attaches to
scene 0's clip — is `scene_2.wav`, the narration synthesized for scene
1, not an artifact of scene 0. -/
theorem c2_counterexample :
    (generate_voice_for_scenes
      [{ description := "d1", narration := "", tone := "mysterious", image_prompt := "p1" },
       { description := "d2", narration := "hello", tone := "joyful", image_prompt := "p2" }])[0]?
      = some (audioFileName 1) ∧ audioFileName 1 ≠ audioFileName 0 := by
  constructor
  · rfl
  · decide

/-- C2 (amended): when every scene's narration is non-empty, the list
returned by `generate_voice_for_scenes` matches scene indices
positionally: entry `i` is `outputs/voice/scene_{i+1}.wav`, the
narration audio synthesized for scene `i`, which `create_slideshow`
reads as `audio_paths[i]`. -/
theorem c2_positional_binding (scenes : List Scene)
    (h : ∀ s ∈ scenes, s.narration ≠ "") (i : ℕ) (hi : i < scenes.length) :
    (generate_voice_for_scenes scenes)[i]? = some (audioFileName i) := by
  unfold generate_voice_for_scenes
  rw [List.filter_eq_self.mpr ?hall]
  case hall =>
    intro p hp
    have h2 : p.2 ∈ scenes := by
      have hg := List.mem_enum_iff_getElem?.mp hp
      exact List.getElem?_mem hg
    simpa using h p.2 h2
  rw [List.getElem?_map, List.getElem?_enum]
  have hx : scenes[i]? = some scenes[i] := List.getElem?_eq_getElem hi
  rw [hx]
  rfl

/-- C2 (witness): instantiation of the amended positional-binding
theorem on a concrete two-scene list with non-empty narrations. -/
theorem c2_positional_binding_witness :
    (generate_voice_for_scenes
      [{ description := "a", narration := "x", tone := "t", image_prompt := "p" },
       { description := "b", narration := "y", tone := "u", image_prompt := "q" }])[1]?
      = some (audioFileName 1) :=
  c2_positional_binding _ (by decide) 1 (by decide)

/-- C9: `get_tone_colors` is a pure lookup: two tone strings equal up to
letter case receive the identical palette, and a tone whose lower-case
form is not one of the 8 fixed keys resolves to the `mysterious`
palette. -/
theorem c9_tone_palette_pure (t1 t2 t3 : String)
    (h12 : pyLower t1 = pyLower t2)
    (h3 : pyLower t3 ∉ tone_palettes.map Prod.fst) :
    get_tone_colors t1 = get_tone_colors t2 ∧ get_tone_colors t3 = mysterious_palette := by
  constructor
  · unfold get_tone_colors
    rw [h12]
  · unfold get_tone_colors
    have hnone : tone_palettes.find? (fun p => p.1 == pyLower t3) = none := by
      apply List.find?_eq_none.mpr
      intro p hp
      simp only [beq_iff_eq]
      intro hcontr
      exact h3 (hcontr ▸ List.mem_map_of_mem Prod.fst hp)
    rw [hnone]

/-- C9 (witness): `"JoYfUl"` and `"joyful"` receive the same palette,
and the unrecognized tone `"spooky"` receives the `mysterious` one. -/
theorem c9_tone_palette_pure_witness :
    get_tone_colors "JoYfUl" = get_tone_colors "joyful" ∧
    get_tone_colors "spooky" = mysterious_palette :=
  c9_tone_palette_pure "JoYfUl" "joyful" "spooky" (by decide) (by decide)

/-- C10: the palette tone used for a scene's placeholder image comes
solely from scanning the image prompt for the 8 tone keywords: whatever
the scene's `tone` field holds, a prompt containing none of the keywords
renders with tone `"mysterious"` and hence the `mysterious` palette
(`generate_images_for_scenes` reads the tone field but never passes it
to `generate_image`). -/
theorem c10_prompt_drives_tone (s : Scene) (t : String)
    (h : ∀ kw ∈ image_tone_keywords, strContains (pyLower s.image_prompt) kw = false) :
    images_tone_used { s with tone := t } = "mysterious" ∧
    get_tone_colors (images_tone_used { s with tone := t }) = mysterious_palette := by
  have h1 : images_tone_used { s with tone := t } = "mysterious" := by
    unfold images_tone_used extract_tone_from_prompt
    have hfind : image_tone_keywords.find?
        (fun kw => strContains (pyLower s.image_prompt) kw) = none :=
      List.find?_eq_none.mpr (fun kw hkw => by simp [h kw hkw])
    exact hfind ▸ rfl
  refine ⟨h1, ?_⟩
  rw [h1]
  rfl

/-- C10 (witness): a scene with tone field `"joyful"` but a
keyword-free prompt renders with the `mysterious` palette. -/
theorem c10_prompt_drives_tone_witness :
    images_tone_used { description := "d", narration := "n", tone := "joyful",
                       image_prompt := "a cat by a lake" } = "mysterious" ∧
    get_tone_colors (images_tone_used { description := "d", narration := "n",
                                        tone := "joyful",
                                        image_prompt := "a cat by a lake" })
      = mysterious_palette :=
  c10_prompt_drives_tone
    { description := "d", narration := "n", tone := "", image_prompt := "a cat by a lake" }
    "joyful" (by decide)

theorem length_flatMap_pair (l : List ℤ) :
    (l.flatMap (fun s => [s, s])).length = 2 * l.length := by
  induction l with
  | nil => rfl
  | cons a as ih =>
    simp only [List.flatMap_cons, List.length_append, List.length_cons, ih]
    simp
    omega

/-- C5: voice synthesis is reproducible — the stereo sample stream (and
even the final RNG state) produced by `text_to_speech_tone` for a given
text with no explicit duration is independent of the incoming global RNG
state, because `random.seed` is called first with a seed that is, by
definition, the sum of the code points of the first 20 characters of the
text; hence two calls with identical text produce byte-identical
waveforms. -/
theorem c5_voice_reproducible {G : Type} (seedFn : ℕ → G) (rand : G → ℚ × G)
    (sinw : ℚ → ℚ) (text : String) (g1 g2 : G) :
    text_to_speech_tone seedFn rand sinw text none g1 =
      text_to_speech_tone seedFn rand sinw text none g2 ∧
    seedOf text = ((text.toList.take 20).map Char.toNat).sum :=
  ⟨rfl, rfl⟩

/-- C7: with no explicit duration, the waveform written by
`text_to_speech_tone` holds `int(44100 * max(3.0, words/150*60))` frames
(each duplicated into the two stereo channels), and that frame count —
i.e. the audio duration at 44100 Hz — matches `max(3.0, words/150*60)`
seconds within one sample frame. -/
theorem c7_voice_duration {G : Type} (seedFn : ℕ → G) (rand : G → ℚ × G)
    (sinw : ℚ → ℚ) (text : String) (g : G) :
    (text_to_speech_tone seedFn rand sinw text none g).1.length = 2 * ttsNumSamples text ∧
    |((ttsNumSamples text : ℚ)) / 44100 - ttsDuration text| ≤ 1 / 44100 := by
  constructor
  · unfold text_to_speech_tone
    simp only [length_flatMap_pair, statefulMap_length, List.length_range]
    rfl
  · have hd3 : (3 : ℚ) ≤ ttsDuration text := le_max_left _ _
    have hx : (0 : ℚ) ≤ 44100 * ttsDuration text := by linarith
    have hfl : pyInt (44100 * ttsDuration text) = ⌊44100 * ttsDuration text⌋ :=
      pyInt_nonneg_eq_floor hx
    have hnn : 0 ≤ ⌊44100 * ttsDuration text⌋ := Int.floor_nonneg.mpr hx
    have hcast : ((ttsNumSamples text : ℚ)) = ((⌊44100 * ttsDuration text⌋ : ℤ) : ℚ) := by
      unfold ttsNumSamples
      rw [hfl]
      exact_mod_cast congrArg (fun z : ℤ => (z : ℚ)) (Int.toNat_of_nonneg hnn)
    have h1 : ((⌊44100 * ttsDuration text⌋ : ℤ) : ℚ) ≤ 44100 * ttsDuration text :=
      Int.floor_le _
    have h2 : 44100 * ttsDuration text - 1 < ((⌊44100 * ttsDuration text⌋ : ℤ) : ℚ) :=
      Int.sub_one_lt_floor _
    rw [abs_le, hcast]
    constructor <;> linarith

/-- C8 (counterexample): a text mentioning six emotion categories makes
`extract_emotions` return six entries — it has no 5-item cap (unlike the
other extractors) — and `extract_key_objects` returns the empty list on
a text with no object keyword — it has no generic filler. -/
theorem c8_counterexample :
    (extract_emotions "happy sad angry afraid surprised disgust").length = 6 ∧
    ¬ (extract_emotions "happy sad angry afraid surprised disgust").length ≤ 5 ∧
    extract_key_objects (fun _ _ => []) "zzz" = [] := by
  refine ⟨by decide, by decide, by decide⟩

/-- C8 (amended): characters, settings and themes are capped (at 5, 3
and 3 items) and nonempty thanks to generic fillers; key objects are
capped at 5 but may be empty (no filler); emotions always carry a filler
but are only bounded by the 10 dictionary categories, not by 5. -/
theorem c8_capped_with_fillers
    (matcherS matcherO : String → String → List String) (text : String) :
    (extract_characters text).length ≤ 5 ∧ extract_characters text ≠ [] ∧
    (extract_settings matcherS text).length ≤ 3 ∧ extract_settings matcherS text ≠ [] ∧
    (extract_key_objects matcherO text).length ≤ 5 ∧
    (extract_themes text).length ≤ 3 ∧ extract_themes text ≠ [] ∧
    (extract_emotions text).length ≤ 10 ∧ extract_emotions text ≠ [] := by
  refine ⟨?_, ?_, ?_, ?_, ?_, ?_, ?_, ?_, ?_⟩
  · exact List.length_take_le _ _
  · unfold extract_characters
    simp only [ne_eq, List.take_eq_nil_iff]
    rintro (h | h)
    · exact absurd h (by decide)
    · split at h <;> simp_all
  · exact List.length_take_le _ _
  · unfold extract_settings
    simp only [ne_eq, List.take_eq_nil_iff]
    rintro (h | h)
    · exact absurd h (by decide)
    · split at h <;> simp_all
  · exact List.length_take_le _ _
  · exact List.length_take_le _ _
  · unfold extract_themes
    simp only [ne_eq, List.take_eq_nil_iff]
    rintro (h | h)
    · exact absurd h (by decide)
    · split at h <;> simp_all
  · simp only [extract_emotions]
    split
    · decide
    · calc ((emotion_keywords.filter _).map Prod.fst).length
          = (emotion_keywords.filter _).length := List.length_map _ _
        _ ≤ emotion_keywords.length := List.length_filter_le _ _
        _ ≤ 10 := by decide
  · simp only [extract_emotions]
    split
    · decide
    · simp_all

theorem zip4_length (a : List α) (b : List β) (c : List γ) (d : List δ) :
    (zip4 a b c d).length = min (min (min a.length b.length) c.length) d.length := by
  induction a generalizing b c d with
  | nil => cases b <;> cases c <;> cases d <;> simp [zip4]
  | cons x xs ih =>
    cases b <;> cases c <;> cases d <;> simp [zip4, ih] <;> omega

theorem zip4_mem_fst (a : List α) (b : List β) (c : List γ) (d : List δ) :
    ∀ x ∈ zip4 a b c d, x.1 ∈ a := by
  induction a generalizing b c d with
  | nil => cases b <;> cases c <;> cases d <;> simp [zip4]
  | cons y ys ih =>
    cases b with
    | nil => simp [zip4]
    | cons z zs =>
      cases c with
      | nil => simp [zip4]
      | cons w ws =>
        cases d with
        | nil => simp [zip4]
        | cons v vs =>
          intro x hx
          rcases List.mem_cons.mp hx with h | h
          · simp [h]
          · exact List.mem_cons_of_mem _ (ih zs ws vs x h)

theorem mem_paragraphsOf_substring (text : List Char) :
    ∀ p ∈ paragraphsOf text, p <:+: text := by
  intro p hp
  unfold paragraphsOf at hp
  have hp' := List.mem_of_mem_filter hp
  obtain ⟨q, hq, rfl⟩ := List.mem_map.mp hp'
  exact (pyStrip_substring q).trans (mem_pySplitChar_substring _ text q hq)

theorem mem_sentencesOf_substring (text : List Char) :
    ∀ s ∈ sentencesOf text, s <:+: text := by
  intro s hs
  unfold sentencesOf at hs
  have hs' := List.mem_of_mem_filter hs
  obtain ⟨q, hq, rfl⟩ := List.mem_map.mp hs'
  exact (pyStrip_substring q).trans (mem_pySplitChar_substring _ text q hq)

theorem joinSpace_singleton (x : List Char) : joinSpace [x] = x := by
  simp [joinSpace, List.intercalate]

theorem sceneTextsAdv_length (text : List Char) (n : ℕ) :
    (sceneTextsAdv text n).length = n := by
  simp only [sceneTextsAdv]
  split
  · split
    · simp
    · simp only [List.length_append, List.length_replicate, List.length_take]
      omega
  · simp only [List.length_append, List.length_replicate, List.length_take]
    omega

theorem sceneTextsAdv_mem (text : List Char) (n : ℕ) :
    ∀ st ∈ sceneTextsAdv text n, st = [] ∨
      ∃ chunks : List (List Char), chunks ≠ [] ∧
        (∀ c ∈ chunks, c <:+: text) ∧ st = joinSpace chunks := by
  intro st hst
  simp only [sceneTextsAdv] at hst
  split at hst
  · split at hst
    · obtain ⟨i, _, heq⟩ := List.mem_map.mp hst
      by_cases hsl : (if i < n - 1 then ((sentencesOf text).drop (i * max 1 ((sentencesOf text).length / n))).take (max 1 ((sentencesOf text).length / n)) else (sentencesOf text).drop (i * max 1 ((sentencesOf text).length / n))) = []
      · left
        rw [← heq, hsl]
        simp [joinSpace, List.intercalate]
      · right
        refine ⟨_, hsl, ?_, heq.symm⟩
        intro c hc
        apply mem_sentencesOf_substring
        by_cases hi : i < n - 1 <;> simp only [hi, if_true, if_false, reduceIte] at hc
        · exact List.mem_of_mem_drop (List.mem_of_mem_take hc)
        · exact List.mem_of_mem_drop hc
    · rcases List.mem_append.mp hst with h | h
      · right
        refine ⟨[st], by simp, ?_, (joinSpace_singleton st).symm⟩
        intro c hc
        rw [List.mem_singleton.mp hc]
        exact mem_sentencesOf_substring text st (List.mem_of_mem_take h)
      · left
        exact List.eq_of_mem_replicate h
  · rcases List.mem_append.mp hst with h | h
    · right
      refine ⟨[st], by simp, ?_, (joinSpace_singleton st).symm⟩
      intro c hc
      rw [List.mem_singleton.mp hc]
      exact mem_paragraphsOf_substring text st (List.mem_of_mem_take h)
    · left
      exact List.eq_of_mem_replicate h

/-- C3 (counterexample): on the 60-character, punctuation-free story
below, `create_advanced_fallback_scenes` pads the missing scene chunks
with the empty string, and the narration of scene 2 becomes
`text[:100] + "..."` — the whole story with `"..."` appended — which is
*not* a verbatim substring (nor a prefix) of the input, contrary to the
claim that the empty-chunk fallback value satisfies the substring
property. -/
theorem c3_counterexample :
    ((create_advanced_fallback_scenes (fun _ _ => []) (fun _ _ => [])
        (SCENE_TYPES.take 3) (CINEMATIC_STYLES.take 3) (CAMERA_SHOTS.take 3)
        "The lantern flickered in the dark and the traveler walked on" 3).map
      Scene.narration)[1]?
      = some ("The lantern flickered in the dark and the traveler walked on" ++ "...") ∧
    ¬ ("The lantern flickered in the dark and the traveler walked on" ++ "...").toList <:+:
        "The lantern flickered in the dark and the traveler walked on".toList := by
  constructor
  · rfl
  · intro h
    have hlen := h.length_le
    revert hlen
    decide

/-- C3 (amended): for every story text (in particular those of at least
50 characters), each narration produced by
`create_advanced_fallback_scenes` is either a space-rejoin of one or
more verbatim (stripped) substrings of the trimmed input — a single
paragraph or sentence chunk being the one-element case — or, when its
scene chunk is empty, the trimmed input's first ≤100 characters with
`"..."` appended; it is never a templated placeholder phrase. -/
theorem c3_narration_verbatim
    (matcherS matcherO : String → String → List String)
    (types styles shots : List String) (story_text : String) (n : ℕ)
    (h50 : 50 ≤ story_text.length) :
    ∀ scene ∈ create_advanced_fallback_scenes matcherS matcherO
        types styles shots story_text n,
      (∃ chunks : List (List Char), chunks ≠ [] ∧
        (∀ c ∈ chunks, c <:+: (trimS story_text).toList) ∧
        scene.narration = String.mk (joinSpace chunks)) ∨
      scene.narration = String.mk ((trimS story_text).toList.take 100 ++ "...".toList) := by
  intro scene hscene
  unfold create_advanced_fallback_scenes at hscene
  obtain ⟨p, hp, rfl⟩ := List.mem_map.mp hscene
  have hptup : p.2 ∈ zip4 (sceneTextsAdv (trimS story_text).toList n)
      types styles shots := List.getElem?_mem (List.mem_enum_iff_getElem?.mp hp)
  have hst : p.2.1 ∈ sceneTextsAdv (trimS story_text).toList n :=
    zip4_mem_fst _ _ _ _ p.2 hptup
  show (∃ chunks : List (List Char), chunks ≠ [] ∧
      (∀ c ∈ chunks, c <:+: (trimS story_text).toList) ∧
      String.mk (narrationOf (trimS story_text).toList p.2.1) = String.mk (joinSpace chunks)) ∨
    String.mk (narrationOf (trimS story_text).toList p.2.1)
      = String.mk ((trimS story_text).toList.take 100 ++ "...".toList)
  by_cases hnil : p.2.1 = []
  · right
    simp [narrationOf, hnil]
  · rcases sceneTextsAdv_mem _ _ p.2.1 hst with h | ⟨chunks, hne, hinf, heq⟩
    · exact absurd h hnil
    · left
      refine ⟨chunks, hne, hinf, ?_⟩
      rw [heq] at hnil
      simp [narrationOf, heq, hnil]

/-- C3 (witness): the amended narration characterization instantiated
on a concrete 60-character story. -/
theorem c3_narration_verbatim_witness :
    50 ≤ ("The lantern flickered in the dark and the traveler walked on" : String).length ∧
    ∀ scene ∈ create_advanced_fallback_scenes (fun _ _ => []) (fun _ _ => [])
        (SCENE_TYPES.take 3) (CINEMATIC_STYLES.take 3) (CAMERA_SHOTS.take 3)
        "The lantern flickered in the dark and the traveler walked on" 3,
      (∃ chunks : List (List Char), chunks ≠ [] ∧
        (∀ c ∈ chunks, c <:+:
          (trimS "The lantern flickered in the dark and the traveler walked on").toList) ∧
        scene.narration = String.mk (joinSpace chunks)) ∨
      scene.narration = String.mk
        ((trimS "The lantern flickered in the dark and the traveler walked on").toList.take 100
          ++ "...".toList) :=
  ⟨by decide,
   c3_narration_verbatim (fun _ _ => []) (fun _ _ => [])
     (SCENE_TYPES.take 3) (CINEMATIC_STYLES.take 3) (CAMERA_SHOTS.take 3)
     "The lantern flickered in the dark and the traveler walked on" 3 (by decide)⟩

/-- C4 (counterexample): `story_to_scenes` falls back to
`create_advanced_fallback_scenes`, which on the 13-character story
`"A short tale."` returns 3 scenes, not the single whole-text scene the
claim describes (that short-circuit lives in
`create_smart_fallback_scenes`, which `story_to_scenes` never calls). -/
theorem c4_counterexample :
    (story_to_scenes_fallback (fun _ _ => []) (fun _ _ => [])
      (SCENE_TYPES.take 3) (CINEMATIC_STYLES.take 3) (CAMERA_SHOTS.take 3)
      "A short tale.").length = 3 ∧ (3 : ℕ) ≠ 1 := by
  constructor
  · rfl
  · decide

/-- C4 (amended): for texts whose trimmed length is below 100,
`create_smart_fallback_scenes` does return exactly one scene narrated by
the whole trimmed input — but the fallback that `story_to_scenes`
actually uses is `create_advanced_fallback_scenes`, which returns
`num_scenes` (= 3, given the 3-element `random.sample` label lists)
scenes regardless of the input length. -/
theorem c4_short_text_segmentation (story_text : String) (n : ℕ)
    (hshort : (trimS story_text).length < 100)
    (matcherS matcherO : String → String → List String)
    (types styles shots : List String)
    (ht : types.length = 3) (hs : styles.length = 3) (hc : shots.length = 3) :
    (create_smart_fallback_scenes story_text n).length = 1 ∧
    (∀ s ∈ create_smart_fallback_scenes story_text n, s.narration = trimS story_text) ∧
    (story_to_scenes_fallback matcherS matcherO types styles shots story_text).length = 3 := by
  refine ⟨?_, ?_, ?_⟩
  · simp only [create_smart_fallback_scenes]
    rw [if_pos hshort]
    rfl
  · intro s hsmem
    simp only [create_smart_fallback_scenes] at hsmem
    rw [if_pos hshort] at hsmem
    rcases List.mem_singleton.mp hsmem with rfl
    rfl
  · simp only [story_to_scenes_fallback, create_advanced_fallback_scenes,
      List.length_map, List.enum_length, zip4_length, sceneTextsAdv_length,
      ht, hs, hc]
    decide

/-- C4 (witness): instantiation on the 13-character story
`"A short tale."`. -/
theorem c4_short_text_segmentation_witness :
    (create_smart_fallback_scenes "A short tale." 3).length = 1 ∧
    (∀ s ∈ create_smart_fallback_scenes "A short tale." 3,
      s.narration = trimS "A short tale.") ∧
    (story_to_scenes_fallback (fun _ _ => []) (fun _ _ => [])
      (SCENE_TYPES.take 3) (CINEMATIC_STYLES.take 3) (CAMERA_SHOTS.take 3)
      "A short tale.").length = 3 :=
  c4_short_text_segmentation "A short tale." 3 (by decide) (fun _ _ => []) (fun _ _ => [])
    (SCENE_TYPES.take 3) (CINEMATIC_STYLES.take 3) (CAMERA_SHOTS.take 3)
    (by decide) (by decide) (by decide)

theorem le_foldl_max (xs : List ℤ) (a : ℤ) : a ≤ xs.foldl max a := by
  induction xs generalizing a with
  | nil => exact le_refl a
  | cons b bs ih => exact le_trans (le_max_left a b) (ih (max a b))

theorem mem_le_foldl_max (xs : List ℤ) (a x : ℤ) (h : x ∈ xs) : x ≤ xs.foldl max a := by
  induction xs generalizing a with
  | nil => cases h
  | cons b bs ih =>
    rcases List.mem_cons.mp h with rfl | h
    · exact le_trans (le_max_right a x) (le_foldl_max bs _)
    · exact ih (max a b) h

theorem foldl_min_le (xs : List ℤ) (a : ℤ) : xs.foldl min a ≤ a := by
  induction xs generalizing a with
  | nil => exact le_refl a
  | cons b bs ih => exact le_trans (ih (min a b)) (min_le_left a b)

theorem foldl_min_le_mem (xs : List ℤ) (a x : ℤ) (h : x ∈ xs) : xs.foldl min a ≤ x := by
  induction xs generalizing a with
  | nil => cases h
  | cons b bs ih =>
    rcases List.mem_cons.mp h with rfl | h
    · exact le_trans (foldl_min_le bs _) (min_le_right a x)
    · exact ih (min a b) h

theorem mem_le_pyListMax (l : List ℤ) (x : ℤ) (h : x ∈ l) : x ≤ pyListMax l := by
  cases l with
  | nil => cases h
  | cons y ys =>
    rcases List.mem_cons.mp h with rfl | h
    · exact le_foldl_max ys x
    · exact mem_le_foldl_max ys y x h

theorem pyListMin_le_mem (l : List ℤ) (x : ℤ) (h : x ∈ l) : pyListMin l ≤ x := by
  cases l with
  | nil => cases h
  | cons y ys =>
    rcases List.mem_cons.mp h with rfl | h
    · exact foldl_min_le ys x
    · exact foldl_min_le_mem ys y x h

theorem abs_le_maxAmplitude (l : List ℤ) (x : ℤ) (h : x ∈ l) :
    |x| ≤ max |pyListMin l| |pyListMax l| := by
  rcases le_or_lt 0 x with hx | hx
  · rw [abs_of_nonneg hx]
    exact le_trans (le_trans (mem_le_pyListMax l x h) (le_abs_self _)) (le_max_right _ _)
  · rw [abs_of_neg hx]
    exact le_trans (le_trans (neg_le_neg (pyListMin_le_mem l x h)) (neg_le_abs _))
      (le_max_left _ _)

theorem musicNormalize_bound (l : List ℤ) : ∀ x ∈ musicNormalize l, |x| ≤ 32767 := by
  intro x hx
  simp only [musicNormalize] at hx
  split at hx
  · rename_i hpos
    obtain ⟨y, hy, rfl⟩ := List.mem_map.mp hx
    have hyM : |y| ≤ max |pyListMin l| |pyListMax l| := abs_le_maxAmplitude l y hy
    set M := max |pyListMin l| |pyListMax l| with hM
    have hMq : (0 : ℚ) < (M : ℚ) := by exact_mod_cast hpos
    have hbound : |(y : ℚ) * (32000 / (M : ℚ))| ≤ 32000 := by
      rw [abs_mul, abs_of_pos (by positivity : (0 : ℚ) < 32000 / (M : ℚ))]
      calc |(y : ℚ)| * (32000 / (M : ℚ))
          ≤ (M : ℚ) * (32000 / (M : ℚ)) := by
            apply mul_le_mul_of_nonneg_right _ (by positivity)
            exact_mod_cast hyM
        _ = 32000 := by field_simp
    exact le_trans (abs_pyInt_le (by norm_num) hbound) (by norm_num)
  · rename_i hpos
    push_neg at hpos
    have hle := abs_le_maxAmplitude l x hx
    have : |x| ≤ 0 := le_trans hle hpos
    omega

theorem le_foldl_min (xs : List ℤ) (a c : ℤ) (ha : c ≤ a) (h : ∀ x ∈ xs, c ≤ x) :
    c ≤ xs.foldl min a := by
  induction xs generalizing a with
  | nil => exact ha
  | cons b bs ih =>
    exact ih (min a b) (le_min ha (h b (List.mem_cons_self b bs)))
      (fun x hx => h x (List.mem_cons_of_mem b hx))

theorem foldl_max_le (xs : List ℤ) (a c : ℤ) (ha : a ≤ c) (h : ∀ x ∈ xs, x ≤ c) :
    xs.foldl max a ≤ c := by
  induction xs generalizing a with
  | nil => exact ha
  | cons b bs ih =>
    exact ih (max a b) (max_le ha (h b (List.mem_cons_self b bs)))
      (fun x hx => h x (List.mem_cons_of_mem b hx))

/-- C6: the waveform returned by `generate_musical_theme` — after the
delay-based reverb and the final normalization — has maximum absolute
sample value (`max(abs(min(w)), abs(max(w)))`, exactly the quantity the
source normalizes by) at most the 16-bit signed maximum 32767, for every
theme, tempo draw, duration and sine implementation, so the conversion
to 16-bit samples cannot overflow or clip. -/
theorem c6_music_normalized (sinw : ℚ → ℚ) (tempo : ℚ) (theme : String)
    (duration sample_rate : ℚ) :
    max |pyListMin (generate_musical_theme sinw tempo theme duration sample_rate)|
      |pyListMax (generate_musical_theme sinw tempo theme duration sample_rate)| ≤ 32767 := by
  have hall : ∀ x ∈ generate_musical_theme sinw tempo theme duration sample_rate,
      |x| ≤ 32767 := by
    intro x hx
    unfold generate_musical_theme at hx
    exact musicNormalize_bound _ x hx
  rcases hl : generate_musical_theme sinw tempo theme duration sample_rate with _ | ⟨y, ys⟩
  · simp [pyListMin, pyListMax]
  · have hally : ∀ x ∈ y :: ys, -32767 ≤ x ∧ x ≤ 32767 := by
      intro x hx
      have := hall x (hl ▸ hx)
      exact abs_le.mp this
    have hy := hally y (List.mem_cons_self y ys)
    rw [max_le_iff, abs_le, abs_le]
    simp only [pyListMin, pyListMax]
    refine ⟨⟨?_, ?_⟩, ?_, ?_⟩
    · exact le_foldl_min ys y (-32767) hy.1 (fun x hx => (hally x (List.mem_cons_of_mem y hx)).1)
    · exact le_trans (foldl_min_le ys y) hy.2
    · exact le_trans hy.1 (le_foldl_max ys y)
    · exact foldl_max_le ys y 32767 hy.2 (fun x hx => (hally x (List.mem_cons_of_mem y hx)).2)
